import Mathlib

/-!
Shallow embedding of the Cichlify product-intelligence pipeline.

The repository ships a single UI file (src/streamlit.py) driving a library
`scraper_module` (ProductScraper, DataAnalyzer, Visualizer) whose source is
not part of the repository.  The Analyze-button control flow is embedded
directly from src/streamlit.py; the library components are modelled from the
specification, as marked on each definition.
-/

namespace Cichlify

/-- Marketplace sources, in declaration order: Amazon before eBay. -/
inductive Source
  | amazon
  | ebay
deriving DecidableEq, Repr

/-! ### ListingParser (spec 4.2) -/

/-- Modelled from the spec: the ListingParser output record (the spec calls
it a partial listing, missing from src): same shape as a listing record,
title and price required, every other field optional. -/
structure ParsedListing where
  title : String
  price : ℚ
  rating : Option ℚ
  reviewCount : Option Nat
  seller : Option String
deriving DecidableEq, Repr

/-- Fields a per-source mapping can extract. -/
inductive FieldName
  | title
  | price
  | rating
  | reviewCount
  | seller
deriving DecidableEq, Repr

/-- Modelled from the spec: the per-source field mapping is a static lookup
table from selector/key to listing field (ListingParser, missing from src). -/
def fieldKey : Source → FieldName → String
  | .amazon, .title => "a-text-normal"
  | .amazon, .price => "a-price"
  | .amazon, .rating => "a-icon-alt"
  | .amazon, .reviewCount => "a-review-count"
  | .amazon, .seller => "a-seller"
  | .ebay, .title => "s-item-title"
  | .ebay, .price => "s-item-price"
  | .ebay, .rating => "s-item-rating"
  | .ebay, .reviewCount => "s-item-reviews"
  | .ebay, .seller => "s-item-seller"

/-- Digit-by-digit natural-number reading of a character run; any
non-digit character makes the run unreadable. -/
def parseNatFrom (acc : Nat) : List Char → Option Nat
  | [] => some acc
  | c :: cs => if c.isDigit then parseNatFrom (acc * 10 + (c.toNat - 48)) cs else none

/-- Natural-number reading of a nonempty digit run. -/
def parseNatText : List Char → Option Nat
  | [] => none
  | cs => parseNatFrom 0 cs

/-- Splits a character run at the first dot: (before, some after) when a
dot occurs, (all, none) otherwise. -/
def splitDot : List Char → List Char × Option (List Char)
  | [] => ([], none)
  | c :: cs =>
    if c = '.' then ([], some cs)
    else
      let r := splitDot cs
      (c :: r.1, r.2)

/-- Modelled from the spec: decimal reading of a price text; a non-numeric
text such as "N/A" has no decimal reading. -/
def parseDecimal (s : String) : Option ℚ :=
  match splitDot s.toList with
  | (w, none) => (parseNatText w).map (fun n => (n : ℚ))
  | (w, some f) =>
    match parseNatText w, parseNatText f with
    | some a, some b => some ((a : ℚ) + (b : ℚ) / (10 : ℚ) ^ f.length)
    | _, _ => none

/-- A raw page is modelled as a list of raw items, each a set of
key/value attributes extracted from the markup. -/
def lookupField (item : List (String × String)) (key : String) : Option String :=
  (item.find? (fun kv => kv.1 == key)).map (fun kv => kv.2)

/-- Item-level extraction failure (spec 7: the ParseError-equivalent). -/
inductive ParseError
  | missingField (f : FieldName)
  | badPrice (raw : String)
deriving DecidableEq, Repr

/-- Modelled from the spec: extraction of one raw item via the static field
mapping; fails when a required field (title, price) is missing or the price
text has no decimal reading; optional fields are simply absent on a failed
lookup. -/
def extractListing (src : Source) (item : List (String × String)) :
    Except ParseError ParsedListing :=
  match lookupField item (fieldKey src .title) with
  | none => .error (.missingField .title)
  | some t =>
    match lookupField item (fieldKey src .price) with
    | none => .error (.missingField .price)
    | some ptxt =>
      match parseDecimal ptxt with
      | none => .error (.badPrice ptxt)
      | some p =>
        .ok { title := t, price := p,
              rating := (lookupField item (fieldKey src .rating)).bind parseDecimal,
              reviewCount := (lookupField item (fieldKey src .reviewCount)).bind
                (fun t2 => parseNatText t2.toList),
              seller := lookupField item (fieldKey src .seller) }

/-- Modelled from the spec: ListingParser.parse (missing from src): item
extraction failures are recovered by dropping the item, so the page as a
whole never raises, and a page with zero parseable items yields the empty
sequence. -/
def parse (src : Source) (rawBody : List (List (String × String))) :
    Except ParseError (List ParsedListing) :=
  .ok (rawBody.filterMap (fun item => (extractListing src item).toOption))

/-! ### HttpFetchEngine (spec 4.1) -/

/-- Fetch failure kinds (spec 4.1). -/
inductive FetchError
  | timeout
  | rateLimited
  | httpStatus (code : Nat)
  | networkError
deriving DecidableEq, Repr

/-- What the network does on one attempt. -/
inductive AttemptOutcome
  | timeout
  | netError
  | status (code : Nat) (body : String)
deriving DecidableEq, Repr

def isSuccess : AttemptOutcome → Bool
  | .status c _ => decide (200 ≤ c) && decide (c < 300)
  | _ => false

/-- Transient failures per the spec: timeouts, 429, 5xx. -/
def isTransient : AttemptOutcome → Bool
  | .timeout => true
  | .netError => true
  | .status c _ => c == 429 || decide (500 ≤ c)

def errorOf : AttemptOutcome → FetchError
  | .timeout => .timeout
  | .netError => .networkError
  | .status c _ => if c = 429 then .rateLimited else .httpStatus c

def statusCode : AttemptOutcome → Nat
  | .status c _ => c
  | _ => 0

def bodyOf : AttemptOutcome → String
  | .status _ b => b
  | _ => ""

/-- Backoff before retry number attempt+1: base delay times 2 to the
attempt, capped. -/
def backoffDelay (base cap : ℚ) (attempt : Nat) : ℚ :=
  min (base * 2 ^ attempt) cap

/-- Modelled from the spec: the HttpFetchEngine retry loop (missing from
src).  One attempt per unit of fuel; success returns, a transient failure
backs off and retries while fuel remains, a non-retriable status fails
immediately.  Returns the result, the number of attempts made, and the
backoff delays slept between attempts. -/
def fetchLoop (responses : Nat → AttemptOutcome) (base cap : ℚ) :
    Nat → Nat → List ℚ → Except FetchError (Nat × String) × Nat × List ℚ
  | attempt, 0, delays => (.error .networkError, attempt, delays)
  | attempt, remaining + 1, delays =>
    let o := responses attempt
    if isSuccess o then (.ok (statusCode o, bodyOf o), attempt + 1, delays)
    else if isTransient o then
      if remaining = 0 then (.error (errorOf o), attempt + 1, delays)
      else fetchLoop responses base cap (attempt + 1) remaining
        (delays ++ [backoffDelay base cap attempt])
    else (.error (errorOf o), attempt + 1, delays)

/-- Modelled from the spec: HttpFetchEngine.fetch with up to maxRetries
attempts (missing from src). -/
def fetch (responses : Nat → AttemptOutcome) (base cap : ℚ) (maxRetries : Nat) :
    Except FetchError (Nat × String) × Nat × List ℚ :=
  fetchLoop responses base cap 0 maxRetries []

/-! ### ProductScraper (spec 4.3) -/

/-- Modelled from the spec/claim: a fetch/parse stack as seen by the
pagination loop (a fake stack in tests). -/
structure FetchParseStack where
  fetchPage : String → Except FetchError String
  parsePage : String → List ParsedListing

/-- Modelled from the spec: the source-specific query URL for Amazon. -/
def amazonURL (product : String) (page : Nat) : String :=
  "https://www.amazon.com/s?k=" ++ product ++ "&page=" ++ toString page

/-- Configuration errors are the only thing the scraper raises (spec 4.3). -/
inductive ConfigError
  | badMaxPages (given : Nat)
deriving DecidableEq, Repr

/-- Modelled from the spec: pagination loop, pages 1..maxPages; stops early
on an empty page or a FetchError, returning the listings collected so far
and the number of page fetch attempts made. -/
def scrapeLoop (st : FetchParseStack) (urlOf : Nat → String) :
    Nat → Nat → List ParsedListing → Nat → List ParsedListing × Nat
  | _, 0, acc, attempts => (acc, attempts)
  | page, remaining + 1, acc, attempts =>
    match st.fetchPage (urlOf page) with
    | .error _ => (acc, attempts + 1)
    | .ok body =>
      match st.parsePage body with
      | [] => (acc, attempts + 1)
      | items => scrapeLoop st urlOf (page + 1) remaining (acc ++ items) (attempts + 1)

/-- Modelled from the spec: ProductScraper.scrape_amazon (missing from
src); raises only the configuration error maxPages = 0. -/
def scrape_amazon (st : FetchParseStack) (product : String) (maxPages : Nat) :
    Except ConfigError (List ParsedListing × Nat) :=
  if maxPages = 0 then .error (.badMaxPages maxPages)
  else .ok (scrapeLoop st (amazonURL product) 1 maxPages [] 0)

/-- Modelled from the spec: the scraper state; the session flag is what
close() releases. -/
structure ScraperState where
  maxRetries : Nat
  delayBetweenRequests : ℚ
  sessionOpen : Bool
  lastRequestAt : Option ℚ
deriving DecidableEq, Repr

/-- Modelled from the spec: ProductScraper.close (missing from src):
releases the session and never raises. -/
def close (s : ScraperState) : Except String ScraperState :=
  .ok { s with sessionOpen := false }

/-! ### DataCleaner (spec 4.4) -/

/-- A scraped listing as handed to the analyzer, before cleaning.
`price = none` models an unparsable price field such as the text "N/A". -/
structure RawListing where
  source : Source
  title : String
  price : Option ℚ
  currency : String
  rating : Option ℚ
  url : String
  scrapedAt : Nat
deriving DecidableEq, Repr

/-- A cleaned listing record: valid positive price in the reporting
currency (spec 3, ListingRecord invariant). -/
structure ListingRecord where
  source : Source
  title : String
  price : ℚ
  rating : Option ℚ
  url : String
  scrapedAt : Nat
deriving DecidableEq, Repr

/-- A price field the cleaner must reject: unparsable (the "N/A" case,
modelled as none) or non-positive. -/
def isInvalidPrice : Option ℚ → Bool
  | none => true
  | some p => decide (p ≤ 0)

/-- Modelled from the spec: DataCleaner record normalization (missing from
src): drops a record whose price is unparsable or non-positive, or whose
currency has no exchange rate; otherwise converts the price to the
reporting currency. -/
def normalizeRecord (rates : String → Option ℚ) (r : RawListing) :
    Option ListingRecord :=
  match r.price with
  | none => none
  | some p =>
    if p ≤ 0 then none
    else
      match rates r.currency with
      | none => none
      | some k =>
        some { source := r.source, title := r.title, price := p * k,
               rating := r.rating, url := r.url, scrapedAt := r.scrapedAt }

def sameKey (a b : ListingRecord) : Bool :=
  a.source == b.source && a.url == b.url

/-- One step of deduplication: a record loses against an already kept
record of the same (source, url) key scraped at least as recently;
otherwise it replaces any older same-key record. -/
def insertLatest (acc : List ListingRecord) (r : ListingRecord) : List ListingRecord :=
  if acc.any (fun x => sameKey x r && decide (r.scrapedAt ≤ x.scrapedAt)) then acc
  else acc.filter (fun x => !sameKey x r) ++ [r]

/-- Modelled from the spec: deduplication of exact (source, url) pairs,
keeping the most recently scraped record of each group. -/
def dedupKeepLatest (l : List ListingRecord) : List ListingRecord :=
  l.foldl insertLatest []

/-- Modelled from the spec: the full cleaning gate: drop invalid records,
then deduplicate. -/
def cleanBatch (rates : String → Option ℚ) (batch : List RawListing) :
    List ListingRecord :=
  dedupKeepLatest (batch.filterMap (normalizeRecord rates))

/-! ### DataAnalyzer (spec 4.5) -/

/-- Modelled from the spec: DataAnalyzer state: constructed from the two
ScrapeBatches plus the injected exchange-rate table (missing from src). -/
structure DataAnalyzer where
  rates : String → Option ℚ
  amazonBatch : List RawListing
  ebayBatch : List RawListing

def cleanAmazon (a : DataAnalyzer) : List ListingRecord :=
  cleanBatch a.rates a.amazonBatch

def cleanEbay (a : DataAnalyzer) : List ListingRecord :=
  cleanBatch a.rates a.ebayBatch

/-- The cleaned union both batches contribute to (spec 4.5). -/
def cleanedUnion (a : DataAnalyzer) : List ListingRecord :=
  cleanAmazon a ++ cleanEbay a

def insertSorted (x : ℚ) : List ℚ → List ℚ
  | [] => [x]
  | y :: ys => if x ≤ y then x :: y :: ys else y :: insertSorted x ys

/-- Insertion sort, ascending. -/
def sortQ (l : List ℚ) : List ℚ := l.foldr insertSorted []

/-- Mean of a list of rationals (only used on nonempty lists). -/
def meanQ (l : List ℚ) : ℚ := l.sum / l.length

def medianQ (l : List ℚ) : Option ℚ :=
  let s := sortQ l
  let n := s.length
  if n = 0 then none
  else if n % 2 = 1 then some (s.getD (n / 2) 0)
  else some ((s.getD (n / 2 - 1) 0 + s.getD (n / 2) 0) / 2)

/-- Per-source (or combined) price statistics row (spec 3).  The standard
deviation is represented by its square, the variance `stdDevSq`, to keep
the development inside the rationals; it is null exactly when the standard
deviation is null. -/
structure PriceStatistics where
  count : Nat
  min : Option ℚ
  max : Option ℚ
  mean : Option ℚ
  median : Option ℚ
  stdDevSq : Option ℚ
deriving DecidableEq, Repr

/-- Modelled from the spec: the statistics aggregation over a list of
cleaned prices; an empty list yields count 0 and null aggregates. -/
def statsOfPrices (prices : List ℚ) : PriceStatistics :=
  match prices with
  | [] => { count := 0, min := none, max := none, mean := none,
            median := none, stdDevSq := none }
  | _ =>
    let m := meanQ prices
    { count := prices.length,
      min := (sortQ prices).head?,
      max := (sortQ prices).getLast?,
      mean := some m,
      median := medianQ prices,
      stdDevSq := some (((prices.map (fun x => (x - m) ^ 2)).sum) / prices.length) }

/-- The three rows get_price_statistics produces (spec 4.5): per source and
combined. -/
structure PriceStatisticsTable where
  amazonRow : PriceStatistics
  ebayRow : PriceStatistics
  combinedRow : PriceStatistics
deriving DecidableEq, Repr

/-- Modelled from the spec: DataAnalyzer.get_price_statistics (missing from
src). -/
def get_price_statistics (a : DataAnalyzer) : PriceStatisticsTable :=
  { amazonRow := statsOfPrices ((cleanAmazon a).map (fun r => r.price)),
    ebayRow := statsOfPrices ((cleanEbay a).map (fun r => r.price)),
    combinedRow := statsOfPrices ((cleanedUnion a).map (fun r => r.price)) }

/-- One row of the competitive analysis (spec 3, CompetitiveRow). -/
structure CompetitiveRow where
  source : Source
  avgPrice : ℚ
  priceRank : Nat
  avgRating : Option ℚ
  listingCount : Nat
deriving DecidableEq, Repr

def avgRatingOf (l : List ListingRecord) : Option ℚ :=
  let rs := l.filterMap (fun r => r.rating)
  if rs.isEmpty then none else some (meanQ rs)

/-- Pre-rank row data for one source: absent when the source has no cleaned
listings (the source is not present in the batch). -/
def rowData (src : Source) (l : List ListingRecord) :
    Option (Source × ℚ × Option ℚ × Nat) :=
  if l.isEmpty then none
  else some (src, meanQ (l.map (fun r => r.price)), avgRatingOf l, l.length)

def assignRanks : Nat → List (Source × ℚ × Option ℚ × Nat) → List CompetitiveRow
  | _, [] => []
  | k, x :: rest =>
    { source := x.1, avgPrice := x.2.1, priceRank := k,
      avgRating := x.2.2.1, listingCount := x.2.2.2 }
      :: assignRanks (k + 1) rest

/-- Sorts the (at most two) candidate rows by average price ascending;
only a strictly cheaper later source moves up, so on ties the declaration
order is kept; then ranks from 1. -/
def rankRows (cands : List (Source × ℚ × Option ℚ × Nat)) : List CompetitiveRow :=
  assignRanks 1
    (match cands with
     | [x, y] => if y.2.1 < x.2.1 then [y, x] else [x, y]
     | other => other)

/-- Modelled from the spec: DataAnalyzer.get_competitive_analysis (missing
from src): rows for the sources present, sorted by average price ascending,
ties keeping the source declaration order (Amazon before eBay), then ranked
from 1. -/
def get_competitive_analysis (a : DataAnalyzer) : List CompetitiveRow :=
  rankRows (([rowData .amazon (cleanAmazon a),
              rowData .ebay (cleanEbay a)]).filterMap id)

/-- The documented minimum number of valid price points the forecast
needs (spec 4.5 policy: at least 2). -/
def minDataPoints : Nat := 2

/-- The fixed small forecast horizon (spec 4.5: e.g. the next 5 periods). -/
def forecastHorizon : Nat := 5

/-- Fitted linear-trend parameters, opaque to callers (spec 3). -/
structure ForecastModel where
  slope : ℚ
  intercept : ℚ
deriving DecidableEq, Repr

/-- Ordered (time_index, predicted_price) pairs (spec 3, ForecastResult). -/
structure ForecastResult where
  points : List (Nat × ℚ)
deriving DecidableEq, Repr

/-- Modelled from the spec: least-squares linear trend of price over the
scrape-order time axis 0, 1, ..., n-1. -/
def fitLinear (ys : List ℚ) : ForecastModel :=
  let n : ℚ := ys.length
  let xs : List ℚ := (List.range ys.length).map (fun i => (i : ℚ))
  let sx := xs.sum
  let sy := ys.sum
  let sxx := (xs.map (fun x => x * x)).sum
  let sxy := ((xs.zip ys).map (fun p => p.1 * p.2)).sum
  let slope := (n * sxy - sx * sy) / (n * sxx - sx * sx)
  { slope := slope, intercept := (sy - slope * sx) / n }

/-- Modelled from the spec: DataAnalyzer.predict_future_prices (missing
from src): below the minimum threshold of valid price points it returns
(None, None); otherwise it fits the linear trend and predicts the next
forecastHorizon periods after the fitted range. -/
def predict_future_prices (a : DataAnalyzer) :
    Option ForecastResult × Option ForecastModel :=
  let ys := (cleanedUnion a).map (fun r => r.price)
  if ys.length < minDataPoints then (none, none)
  else
    let m := fitLinear ys
    let pts := (List.range forecastHorizon).map
      (fun k => (ys.length + k, m.intercept + m.slope * ((ys.length + k : Nat) : ℚ)))
    (some { points := pts }, some m)

/-- Modelled from the spec: one method call returns its result together
with the analyzer state after the call; per spec 4.5 every method is a pure
derivation over the cleaned union and mutates nothing. -/
def get_price_statistics_call (a : DataAnalyzer) :
    PriceStatisticsTable × DataAnalyzer :=
  (get_price_statistics a, a)

/-- Modelled from the spec: stateful view of a get_competitive_analysis
call; see get_price_statistics_call. -/
def get_competitive_analysis_call (a : DataAnalyzer) :
    List CompetitiveRow × DataAnalyzer :=
  (get_competitive_analysis a, a)

/-! ### The Analyze button handler (src/streamlit.py lines 33-66) -/

/-- One step of the Analyze button handler, embedded from
src/streamlit.py. -/
inductive Step
  | constructScraper
  | scrapeAmazon
  | scrapeEbay
  | closeScraper
  | constructAnalyzer
  | showStatistics
  | showCompetitive
  | runPredict
  | showPredictions
  | buildVisualization
  | renderCharts
  | showError
deriving DecidableEq, Repr, Fintype

/-- The steps inside the try block, in source order (lines 36-63):
construct the scraper (36), scrape Amazon (37), scrape eBay (38), close the
scraper (39), construct the analyzer (41), show statistics (43-44), show
the competitive analysis (46-47), run the prediction (49-50), show the
predictions when not None (51-52), build the visualization data (54-56) and
render the charts (58-63). -/
def tryBody (hasPredictions : Bool) : List Step :=
  [.constructScraper, .scrapeAmazon, .scrapeEbay, .closeScraper,
   .constructAnalyzer, .showStatistics, .showCompetitive, .runPredict]
  ++ (if hasPredictions then [.showPredictions] else [])
  ++ [.buildVisualization, .renderCharts]

/-- Runs steps in order; a failing step raises, control jumps to the except
handler (lines 65-66) which shows the error, and the remaining try-body
steps never run.  The source has no finally block. -/
def runSteps (fails : Step → Bool) : List Step → List Step
  | [] => []
  | s :: rest => if fails s then [s, .showError] else s :: runSteps fails rest

/-- The trace of one Analyze run: the try body filtered through exception
propagation. -/
def runHandler (fails : Step → Bool) (hasPredictions : Bool) : List Step :=
  runSteps fails (tryBody hasPredictions)

/-- Source-order position of each step in the handler body; the except
handler comes last. -/
def progPos : Step → Nat
  | .constructScraper => 0
  | .scrapeAmazon => 1
  | .scrapeEbay => 2
  | .closeScraper => 3
  | .constructAnalyzer => 4
  | .showStatistics => 5
  | .showCompetitive => 6
  | .runPredict => 7
  | .showPredictions => 8
  | .buildVisualization => 9
  | .renderCharts => 10
  | .showError => 11

/-- Steps that touch the network through the scraper session. -/
def isNetworkStep : Step → Bool
  | .scrapeAmazon => true
  | .scrapeEbay => true
  | _ => false

/-- Steps that belong to the analysis phase (everything from the analyzer
construction on). -/
def isAnalysisStep : Step → Bool
  | .constructAnalyzer => true
  | .showStatistics => true
  | .showCompetitive => true
  | .runPredict => true
  | .showPredictions => true
  | .buildVisualization => true
  | .renderCharts => true
  | _ => false

/-- Exchange-rate table fixture for concrete runs: USD is the reporting
currency. -/
def usdRates : String → Option ℚ := fun c => if c = "USD" then some 1 else none

/-- Raw-listing fixture for concrete runs. -/
def mkRaw (src : Source) (t : String) (p : Option ℚ) (u : String) (n : Nat) : RawListing :=
  { source := src, title := t, price := p, currency := "USD", rating := none,
    url := u, scrapedAt := n }

/-! ## Theorems -/

/-- C8: close() releases the underlying session and is safe; a second
close() is an idempotent no-op that does not raise and leaves the scraper
state unchanged. -/
theorem close_releases_and_is_idempotent (s : ScraperState) :
    ∃ s2, close s = .ok s2 ∧ s2.sessionOpen = false ∧ close s2 = .ok s2 :=
  ⟨{ s with sessionOpen := false }, rfl, rfl, rfl⟩

/-- C7: calling get_price_statistics twice, or get_competitive_analysis
twice, on the same analyzer yields identical results on both calls, and
neither call mutates the analyzer state. -/
theorem analyzer_methods_idempotent (a : DataAnalyzer) :
    (get_price_statistics_call (get_price_statistics_call a).2).1
        = (get_price_statistics_call a).1
    ∧ (get_price_statistics_call a).2 = a
    ∧ (get_competitive_analysis_call (get_competitive_analysis_call a).2).1
        = (get_competitive_analysis_call a).1
    ∧ (get_competitive_analysis_call a).2 = a :=
  ⟨rfl, rfl, rfl, rfl⟩

/-- C9: in the Analyze handler, if the scraper construction, the Amazon
scrape or the eBay scrape raises, scraper.close() is never invoked: the
close call on line 39 of src/streamlit.py is not in a finally block, so the
session is not released on those error paths. -/
theorem handler_close_skipped_on_error (fails : Step → Bool) (p : Bool)
    (h : fails .constructScraper = true ∨ fails .scrapeAmazon = true ∨
         fails .scrapeEbay = true) :
    Step.closeScraper ∉ runHandler fails p := by
  cases hc : fails .constructScraper <;> cases ha : fails .scrapeAmazon <;>
    cases he : fails .scrapeEbay <;> cases p <;>
      simp_all [runHandler, tryBody, runSteps]

/-- Witness for C9: with a run whose Amazon scrape raises, the trace never
contains the close step. -/
theorem handler_close_skipped_on_error_witness :
    Step.closeScraper ∉ runHandler (fun s => s == Step.scrapeAmazon) true :=
  handler_close_skipped_on_error (fun s => s == Step.scrapeAmazon) true
    (Or.inr (Or.inl (by decide)))

/-- Any trace of the handler is a sublist of the try body followed by the
error step. -/
theorem runSteps_sublist (fails : Step → Bool) (l : List Step) :
    List.Sublist (runSteps fails l) (l ++ [Step.showError]) := by
  induction l with
  | nil => simp [runSteps]
  | cons s rest ih =>
    by_cases h : fails s = true
    · simp only [runSteps, h, if_true]
      exact List.Sublist.cons₂ s (List.sublist_append_right rest [Step.showError])
    · simp only [runSteps, h, if_false, Bool.not_eq_true] at *
      simpa [h] using List.Sublist.cons₂ s ih

/-- The try body (with the trailing error step) is strictly ordered by
source position. -/
theorem tryBody_pairwise (p : Bool) :
    (tryBody p ++ [Step.showError]).Pairwise (fun a b => progPos a < progPos b) := by
  cases p <;> decide

/-- Every handler trace is strictly ordered by source position. -/
theorem runHandler_pairwise (fails : Step → Bool) (p : Bool) :
    (runHandler fails p).Pairwise (fun a b => progPos a < progPos b) :=
  (tryBody_pairwise p).sublist (runSteps_sublist fails (tryBody p))

/-- C10: in every Analyze run, the Amazon scrape precedes the eBay scrape
on the shared scraper, close() precedes the DataAnalyzer construction, and
every network step precedes every analysis step. -/
theorem handler_network_precedes_analysis (fails : Step → Bool) (p : Bool) :
    (∀ i j (hi : i < (runHandler fails p).length) (hj : j < (runHandler fails p).length),
        (runHandler fails p).get ⟨i, hi⟩ = Step.scrapeAmazon →
        (runHandler fails p).get ⟨j, hj⟩ = Step.scrapeEbay → i < j)
    ∧ (∀ i j (hi : i < (runHandler fails p).length) (hj : j < (runHandler fails p).length),
        (runHandler fails p).get ⟨i, hi⟩ = Step.closeScraper →
        (runHandler fails p).get ⟨j, hj⟩ = Step.constructAnalyzer → i < j)
    ∧ (∀ i j (hi : i < (runHandler fails p).length) (hj : j < (runHandler fails p).length),
        isNetworkStep ((runHandler fails p).get ⟨i, hi⟩) = true →
        isAnalysisStep ((runHandler fails p).get ⟨j, hj⟩) = true → i < j) := by
  have hg := List.pairwise_iff_get.mp (runHandler_pairwise fails p)
  refine ⟨?_, ?_, ?_⟩
  · intro i j hi hj h1 h2
    rcases Nat.lt_trichotomy i j with h | h | h
    · exact h
    · exfalso
      subst h
      exact absurd (h1.symm.trans h2) (by decide)
    · exfalso
      have hlt := hg ⟨j, hj⟩ ⟨i, hi⟩ h
      rw [h1, h2] at hlt
      exact absurd hlt (by decide)
  · intro i j hi hj h1 h2
    rcases Nat.lt_trichotomy i j with h | h | h
    · exact h
    · exfalso
      subst h
      exact absurd (h1.symm.trans h2) (by decide)
    · exfalso
      have hlt := hg ⟨j, hj⟩ ⟨i, hi⟩ h
      rw [h1, h2] at hlt
      exact absurd hlt (by decide)
  · intro i j hi hj h1 h2
    have hpos : ∀ x y : Step, isNetworkStep x = true → isAnalysisStep y = true →
        progPos x < progPos y := by decide
    rcases Nat.lt_trichotomy i j with h | h | h
    · exact h
    · exfalso
      subst h
      have hboth : ∀ x : Step, isNetworkStep x = true → isAnalysisStep x = true → False := by
        decide
      exact hboth _ h1 h2
    · exfalso
      have hlt := hg ⟨j, hj⟩ ⟨i, hi⟩ h
      have := hpos _ _ h1 h2
      omega

/-- Witness for C10: in the all-successful run, the Amazon scrape at index
1 precedes the eBay scrape at index 2. -/
theorem handler_network_precedes_analysis_witness :
    (runHandler (fun _ => false) false).getD 1 Step.showError = Step.scrapeAmazon
    ∧ (runHandler (fun _ => false) false).getD 2 Step.showError = Step.scrapeEbay
    ∧ (1 : Nat) < 2 :=
  ⟨by decide, by decide,
    (handler_network_precedes_analysis (fun _ => false) false).1 1 2
      (by decide) (by decide) (by decide) (by decide)⟩


/-- C6: parse never raises: for every source and raw body, including
malformed items, it returns ok — an item whose required fields do not match
is simply dropped — and a page with zero parseable items yields the empty
sequence rather than an error. -/
theorem parse_never_raises (src : Source) (body : List (List (String × String))) :
    (∃ l, parse src body = .ok l)
    ∧ ((∀ item ∈ body, (extractListing src item).toOption = none) →
        parse src body = .ok []) := by
  refine ⟨⟨_, rfl⟩, fun h => ?_⟩
  unfold parse
  exact congrArg Except.ok (List.filterMap_eq_nil_iff.mpr h)

/-- Witness for C6: a malformed page (no title, no price, price "N/A")
parses to ok with the empty sequence. -/
theorem parse_never_raises_witness :
    parse Source.amazon [[("junk", "1")], [("a-text-normal", "Foo")],
      [("a-text-normal", "Bar"), ("a-price", "N/A")]] = .ok [] :=
  (parse_never_raises Source.amazon _).2 (by decide)

/-- A record with an invalid price never survives normalization. -/
theorem normalizeRecord_invalid (rates : String → Option ℚ) (r : RawListing)
    (h : isInvalidPrice r.price = true) : normalizeRecord rates r = none := by
  cases hp : r.price with
  | none => simp [normalizeRecord, hp]
  | some p =>
    rw [hp] at h
    simp only [isInvalidPrice] at h
    simp [normalizeRecord, hp, of_decide_eq_true h]

/-- Appending an invalid record to a batch does not change its cleaning. -/
theorem cleanBatch_append_invalid (rates : String → Option ℚ)
    (b : List RawListing) (r : RawListing) (h : isInvalidPrice r.price = true) :
    cleanBatch rates (b ++ [r]) = cleanBatch rates b := by
  unfold cleanBatch
  rw [List.filterMap_append]
  simp [normalizeRecord_invalid rates r h]

/-- A batch of invalid records cleans to nothing. -/
theorem cleanBatch_all_invalid (rates : String → Option ℚ) (b : List RawListing)
    (h : ∀ x ∈ b, isInvalidPrice x.price = true) :
    cleanBatch rates b = [] := by
  unfold cleanBatch
  rw [List.filterMap_eq_nil_iff.mpr (fun x hx => normalizeRecord_invalid rates x (h x hx))]
  rfl

/-- C5: a listing whose price is "N/A" (unparsable, modelled as none) or
non-positive is excluded from all statistics — appending it to a batch
changes no analyzer output — and a source whose listings are all invalid
still gets its statistics row, with count 0 and null aggregates, rather
than being omitted or crashing. -/
theorem invalid_prices_excluded (a : DataAnalyzer) (r : RawListing)
    (hr : isInvalidPrice r.price = true) :
    (get_price_statistics { a with amazonBatch := a.amazonBatch ++ [r] }
        = get_price_statistics a
      ∧ get_price_statistics { a with ebayBatch := a.ebayBatch ++ [r] }
        = get_price_statistics a
      ∧ get_competitive_analysis { a with amazonBatch := a.amazonBatch ++ [r] }
        = get_competitive_analysis a
      ∧ predict_future_prices { a with amazonBatch := a.amazonBatch ++ [r] }
        = predict_future_prices a)
    ∧ ((∀ x ∈ a.amazonBatch, isInvalidPrice x.price = true) →
        (get_price_statistics a).amazonRow
          = { count := 0, min := none, max := none, mean := none,
              median := none, stdDevSq := none })
    ∧ ((∀ x ∈ a.ebayBatch, isInvalidPrice x.price = true) →
        (get_price_statistics a).ebayRow
          = { count := 0, min := none, max := none, mean := none,
              median := none, stdDevSq := none }) := by
  have hA : cleanAmazon { a with amazonBatch := a.amazonBatch ++ [r] } = cleanAmazon a :=
    cleanBatch_append_invalid a.rates a.amazonBatch r hr
  have hE : cleanEbay { a with amazonBatch := a.amazonBatch ++ [r] } = cleanEbay a := rfl
  have hA2 : cleanAmazon { a with ebayBatch := a.ebayBatch ++ [r] } = cleanAmazon a := rfl
  have hE2 : cleanEbay { a with ebayBatch := a.ebayBatch ++ [r] } = cleanEbay a :=
    cleanBatch_append_invalid a.rates a.ebayBatch r hr
  refine ⟨⟨?_, ?_, ?_, ?_⟩, fun h => ?_, fun h => ?_⟩
  · simp only [get_price_statistics, cleanedUnion, hA, hE]
  · simp only [get_price_statistics, cleanedUnion, hA2, hE2]
  · simp only [get_competitive_analysis, hA, hE]
  · simp only [predict_future_prices, cleanedUnion, hA, hE]
  · have h0 : cleanAmazon a = [] := cleanBatch_all_invalid a.rates a.amazonBatch h
    simp [get_price_statistics, h0, statsOfPrices]
  · have h0 : cleanEbay a = [] := cleanBatch_all_invalid a.rates a.ebayBatch h
    simp [get_price_statistics, h0, statsOfPrices]

/-- Witness for C5: appending a price-"N/A" record changes nothing, and an
all-invalid Amazon batch still yields the count-0 all-null row. -/
theorem invalid_prices_excluded_witness :
    (get_price_statistics
        { rates := usdRates,
          amazonBatch := [mkRaw .amazon "b" (some (-2)) "u" 0]
              ++ [mkRaw .amazon "n" none "v" 0],
          ebayBatch := [] }
      = get_price_statistics
        { rates := usdRates,
          amazonBatch := [mkRaw .amazon "b" (some (-2)) "u" 0],
          ebayBatch := [] })
    ∧ (get_price_statistics
        { rates := usdRates,
          amazonBatch := [mkRaw .amazon "b" (some (-2)) "u" 0],
          ebayBatch := [] }).amazonRow
      = { count := 0, min := none, max := none, mean := none,
          median := none, stdDevSq := none } := by
  have h := invalid_prices_excluded
    { rates := usdRates,
      amazonBatch := [mkRaw .amazon "b" (some (-2)) "u" 0],
      ebayBatch := [] }
    (mkRaw .amazon "n" none "v" 0) (by decide)
  exact ⟨h.1.1, h.2.1 (by decide)⟩


/-- C1: with fewer than the minimum threshold of valid price points in the
cleaned union, predict_future_prices returns (None, None) — absence, never
a zero- or NaN-filled result; with at least the threshold, it returns a
non-empty ForecastResult whose time indices are strictly increasing,
together with the fitted model. -/
theorem forecast_threshold (a : DataAnalyzer) :
    ((cleanedUnion a).length < minDataPoints → predict_future_prices a = (none, none))
    ∧ (minDataPoints ≤ (cleanedUnion a).length →
        ∃ fr m, predict_future_prices a = (some fr, some m)
          ∧ fr.points ≠ []
          ∧ fr.points.Pairwise (fun q r2 => q.1 < r2.1)) := by
  constructor
  · intro h
    simp only [predict_future_prices, List.length_map]
    rw [if_pos h]
  · intro h
    simp only [predict_future_prices, List.length_map]
    rw [if_neg (Nat.not_lt.mpr h)]
    refine ⟨_, _, rfl, ?_, ?_⟩
    · simp [forecastHorizon]
    · rw [List.pairwise_map]
      exact (List.pairwise_lt_range forecastHorizon).imp
        (fun hk => Nat.add_lt_add_left hk _)

/-- Witness for C1: one empty analyzer is below the threshold and yields
(none, none); one with two valid price points is at the threshold and
yields a forecast. -/
theorem forecast_threshold_witness :
    predict_future_prices { rates := usdRates, amazonBatch := [], ebayBatch := [] }
      = (none, none)
    ∧ ∃ fr m, predict_future_prices
        { rates := usdRates,
          amazonBatch := [mkRaw .amazon "x" (some 1) "u1" 0,
                          mkRaw .amazon "y" (some 2) "u2" 0],
          ebayBatch := [] } = (some fr, some m)
        ∧ fr.points ≠ []
        ∧ fr.points.Pairwise (fun q r2 => q.1 < r2.1) := by
  constructor
  · refine (forecast_threshold _).1 ?_
    simp [cleanedUnion, cleanAmazon, cleanEbay, cleanBatch, dedupKeepLatest,
      List.filterMap, minDataPoints]
  · refine (forecast_threshold _).2 ?_
    norm_num [cleanedUnion, cleanAmazon, cleanEbay, cleanBatch, normalizeRecord,
      usdRates, mkRaw, dedupKeepLatest, insertLatest, sameKey, List.filterMap,
      minDataPoints]
    simp

/-- C4: the competitive analysis ranks the sources present with
consecutive ranks from 1 (rank 1 the cheapest), rows sorted by average
price ascending, ties ordered Amazon before eBay; a source appears exactly
when it has cleaned listings. -/
theorem competitive_ranking_total_order (a : DataAnalyzer) :
    ((get_competitive_analysis a).map (fun x => x.priceRank)
        = List.range' 1 (get_competitive_analysis a).length)
    ∧ (get_competitive_analysis a).Pairwise
        (fun x y => x.avgPrice < y.avgPrice ∨
          (x.avgPrice = y.avgPrice ∧ x.source = Source.amazon ∧ y.source = Source.ebay))
    ∧ ((Source.amazon ∈ (get_competitive_analysis a).map (fun x => x.source))
        ↔ cleanAmazon a ≠ [])
    ∧ ((Source.ebay ∈ (get_competitive_analysis a).map (fun x => x.source))
        ↔ cleanEbay a ≠ []) := by
  by_cases ha : (cleanAmazon a).isEmpty <;> by_cases he : (cleanEbay a).isEmpty
  · simp_all [get_competitive_analysis, rowData, rankRows, assignRanks,
      List.isEmpty_iff]
  · simp_all [get_competitive_analysis, rowData, rankRows, assignRanks,
      List.isEmpty_iff]
  · simp_all [get_competitive_analysis, rowData, rankRows, assignRanks,
      List.isEmpty_iff]
  · rw [Bool.not_eq_true] at ha he
    have hane : cleanAmazon a ≠ [] := by
      intro h0
      rw [h0] at ha
      simp at ha
    have hene : cleanEbay a ≠ [] := by
      intro h0
      rw [h0] at he
      simp at he
    by_cases hcmp : meanQ ((cleanEbay a).map (fun r => r.price))
        < meanQ ((cleanAmazon a).map (fun r => r.price))
    · have hrows : get_competitive_analysis a =
          [{ source := .ebay, avgPrice := meanQ ((cleanEbay a).map (fun r => r.price)),
             priceRank := 1, avgRating := avgRatingOf (cleanEbay a),
             listingCount := (cleanEbay a).length },
           { source := .amazon, avgPrice := meanQ ((cleanAmazon a).map (fun r => r.price)),
             priceRank := 2, avgRating := avgRatingOf (cleanAmazon a),
             listingCount := (cleanAmazon a).length }] := by
        simp [get_competitive_analysis, rowData, rankRows, ha, he, List.filterMap,
          if_pos hcmp, assignRanks]
      rw [hrows]
      refine ⟨rfl, ?_, ?_, ?_⟩
      · refine List.pairwise_cons.mpr ⟨fun y hy => ?_, by simp⟩
        rw [List.mem_singleton.mp hy]
        exact Or.inl hcmp
      · simp [hane]
      · simp [hene]
    · have hrows : get_competitive_analysis a =
          [{ source := .amazon, avgPrice := meanQ ((cleanAmazon a).map (fun r => r.price)),
             priceRank := 1, avgRating := avgRatingOf (cleanAmazon a),
             listingCount := (cleanAmazon a).length },
           { source := .ebay, avgPrice := meanQ ((cleanEbay a).map (fun r => r.price)),
             priceRank := 2, avgRating := avgRatingOf (cleanEbay a),
             listingCount := (cleanEbay a).length }] := by
        simp [get_competitive_analysis, rowData, rankRows, ha, he, List.filterMap,
          if_neg hcmp, assignRanks]
      rw [hrows]
      refine ⟨rfl, ?_, ?_, ?_⟩
      · refine List.pairwise_cons.mpr ⟨fun y hy => ?_, by simp⟩
        rw [List.mem_singleton.mp hy]
        rcases lt_or_eq_of_le (not_lt.mp hcmp) with hlt | heq
        · exact Or.inl hlt
        · exact Or.inr ⟨heq, rfl, rfl⟩
      · simp [hane]
      · simp [hene]


/-- The retry loop on a run of k transient failures followed by a success:
it succeeds on attempt attempt+k, having slept the capped exponential
backoff before each retry. -/
theorem fetchLoop_transient_run (responses : Nat → AttemptOutcome) (base cap : ℚ) :
    ∀ k attempt delays,
      (∀ i, i < k → isTransient (responses (attempt + i)) = true
        ∧ isSuccess (responses (attempt + i)) = false) →
      isSuccess (responses (attempt + k)) = true →
      fetchLoop responses base cap attempt (k + 1) delays
        = (.ok (statusCode (responses (attempt + k)), bodyOf (responses (attempt + k))),
           attempt + k + 1,
           delays ++ (List.range k).map (fun i => backoffDelay base cap (attempt + i))) := by
  intro k
  induction k with
  | zero =>
    intro attempt delays _ hsucc
    rw [Nat.add_zero] at hsucc
    simp [fetchLoop, hsucc]
  | succ k ih =>
    intro attempt delays htrans hsucc
    have h0 := htrans 0 (by omega)
    rw [Nat.add_zero] at h0
    have hstep : fetchLoop responses base cap attempt (k + 1 + 1) delays
        = fetchLoop responses base cap (attempt + 1) (k + 1)
            (delays ++ [backoffDelay base cap attempt]) := by
      simp [fetchLoop, h0.1, h0.2]
    rw [hstep]
    rw [ih (attempt + 1) (delays ++ [backoffDelay base cap attempt])
      (fun i hi => by
        have := htrans (i + 1) (by omega)
        rwa [show attempt + (i + 1) = attempt + 1 + i by omega] at this)
      (by rwa [show attempt + 1 + k = attempt + (k + 1) by omega])]
    have harith : attempt + 1 + k = attempt + (k + 1) := by omega
    rw [harith]
    have hlist : (delays ++ [backoffDelay base cap attempt])
        ++ (List.range k).map (fun i => backoffDelay base cap (attempt + 1 + i))
        = delays ++ (List.range (k + 1)).map (fun i => backoffDelay base cap (attempt + i)) := by
      rw [List.range_succ_eq_map]
      simp only [List.map_cons, List.map_map, Nat.add_zero, List.append_assoc,
        List.singleton_append]
      refine congrArg (fun l => delays ++ backoffDelay base cap attempt :: l) ?_
      refine List.map_congr_left (fun i _ => ?_)
      simp only [Function.comp]
      rw [show attempt + 1 + i = attempt + (i + 1) by omega]
    rw [hlist]

/-- The retry loop on a run of j transient failures followed by a
non-retriable outcome: it fails right there, with no further attempts. -/
theorem fetchLoop_transient_then_fail (responses : Nat → AttemptOutcome) (base cap : ℚ) :
    ∀ j attempt delays remaining, j + 1 ≤ remaining →
      (∀ i, i < j → isTransient (responses (attempt + i)) = true
        ∧ isSuccess (responses (attempt + i)) = false) →
      isSuccess (responses (attempt + j)) = false →
      isTransient (responses (attempt + j)) = false →
      fetchLoop responses base cap attempt remaining delays
        = (.error (errorOf (responses (attempt + j))), attempt + j + 1,
           delays ++ (List.range j).map (fun i => backoffDelay base cap (attempt + i))) := by
  intro j
  induction j with
  | zero =>
    intro attempt delays remaining hrem _ hsucc htr
    obtain ⟨r, rfl⟩ : ∃ r, remaining = r + 1 := ⟨remaining - 1, by omega⟩
    rw [Nat.add_zero] at hsucc htr
    simp [fetchLoop, hsucc, htr]
  | succ j ih =>
    intro attempt delays remaining hrem htrans hsucc htr
    obtain ⟨r, rfl⟩ : ∃ r, remaining = r + 1 := ⟨remaining - 1, by omega⟩
    have h0 := htrans 0 (by omega)
    rw [Nat.add_zero] at h0
    have hr0 : r ≠ 0 := by omega
    have hstep : fetchLoop responses base cap attempt (r + 1) delays
        = fetchLoop responses base cap (attempt + 1) r
            (delays ++ [backoffDelay base cap attempt]) := by
      simp [fetchLoop, h0.1, h0.2, hr0]
    rw [hstep]
    rw [ih (attempt + 1) (delays ++ [backoffDelay base cap attempt]) r (by omega)
      (fun i hi => by
        have := htrans (i + 1) (by omega)
        rwa [show attempt + (i + 1) = attempt + 1 + i by omega] at this)
      (by rwa [show attempt + 1 + j = attempt + (j + 1) by omega])
      (by rwa [show attempt + 1 + j = attempt + (j + 1) by omega])]
    have harith : attempt + 1 + j = attempt + (j + 1) := by omega
    rw [harith]
    have hlist : (delays ++ [backoffDelay base cap attempt])
        ++ (List.range j).map (fun i => backoffDelay base cap (attempt + 1 + i))
        = delays ++ (List.range (j + 1)).map (fun i => backoffDelay base cap (attempt + i)) := by
      rw [List.range_succ_eq_map]
      simp only [List.map_cons, List.map_map, Nat.add_zero, List.append_assoc,
        List.singleton_append]
      refine congrArg (fun l => delays ++ backoffDelay base cap attempt :: l) ?_
      refine List.map_congr_left (fun i _ => ?_)
      simp only [Function.comp]
      rw [show attempt + 1 + i = attempt + (i + 1) by omega]
    rw [hlist]

/-- C2: when the first maxRetries-1 attempts fail transiently and the next
attempt succeeds, fetch succeeds having made exactly maxRetries attempts,
sleeping the exponentially increasing capped backoff (base times 2 to the
attempt, capped) between attempts; a non-retriable status (neither success
nor transient, e.g. 403 or 404) at any attempt j fails immediately after
exactly j+1 attempts. -/
theorem fetch_retry_and_backoff (responses : Nat → AttemptOutcome)
    (base cap : ℚ) (maxRetries : Nat) (h1 : 1 ≤ maxRetries) :
    ((∀ i, i < maxRetries - 1 →
        isTransient (responses i) = true ∧ isSuccess (responses i) = false) →
      isSuccess (responses (maxRetries - 1)) = true →
      fetch responses base cap maxRetries
        = (.ok (statusCode (responses (maxRetries - 1)), bodyOf (responses (maxRetries - 1))),
           maxRetries,
           (List.range (maxRetries - 1)).map (backoffDelay base cap)))
    ∧ (∀ j, j < maxRetries →
        (∀ i, i < j → isTransient (responses i) = true ∧ isSuccess (responses i) = false) →
        isSuccess (responses j) = false → isTransient (responses j) = false →
        fetch responses base cap maxRetries
          = (.error (errorOf (responses j)), j + 1,
             (List.range j).map (backoffDelay base cap))) := by
  obtain ⟨k, rfl⟩ : ∃ k, maxRetries = k + 1 := ⟨maxRetries - 1, by omega⟩
  rw [show k + 1 - 1 = k from rfl]
  constructor
  · intro htrans hsucc
    have h := fetchLoop_transient_run responses base cap k 0 []
      (fun i hi => by rw [Nat.zero_add]; exact htrans i hi)
      (by rwa [Nat.zero_add])
    rw [fetch, h]
    simp
  · intro j hj htrans hsucc htr
    have h := fetchLoop_transient_then_fail responses base cap j 0 [] (k + 1) (by omega)
      (fun i hi => by rw [Nat.zero_add]; exact htrans i hi)
      (by rwa [Nat.zero_add]) (by rwa [Nat.zero_add])
    rw [fetch, h]
    simp

/-- Network fixture for the C2 witness: two transient failures, then
success. -/
def retryResponses : Nat → AttemptOutcome := fun i =>
  if i = 0 then .timeout else if i = 1 then .status 500 "overloaded" else .status 200 "ok"

/-- Witness for C2: with max_retries = 3, two transient failures then a
success give a successful fetch in exactly 3 attempts with the two capped
exponential backoff delays; a 404 fails after exactly one attempt. -/
theorem fetch_retry_and_backoff_witness :
    fetch retryResponses 1 10 3
      = (.ok (200, "ok"), 3, (List.range 2).map (backoffDelay 1 10))
    ∧ fetch (fun _ => .status 404 "missing") 1 10 3
      = (.error (.httpStatus 404), 1, []) := by
  constructor
  · exact (fetch_retry_and_backoff retryResponses 1 10 3 (by omega)).1
      (by decide) (by decide)
  · have h := (fetch_retry_and_backoff (fun _ => .status 404 "missing") 1 10 3 (by omega)).2
      0 (by omega) (by omega) (by decide) (by decide)
    simpa using h

/-- The pagination loop stops on a fetch error, keeping what it has. -/
theorem scrapeLoop_stop_error (st : FetchParseStack) (urlOf : Nat → String)
    (page r : Nat) (acc : List ParsedListing) (att : Nat) (e : FetchError)
    (hf : st.fetchPage (urlOf page) = .error e) :
    scrapeLoop st urlOf page (r + 1) acc att = (acc, att + 1) := by
  simp [scrapeLoop, hf]

/-- The pagination loop stops on an empty page, keeping what it has. -/
theorem scrapeLoop_stop_empty (st : FetchParseStack) (urlOf : Nat → String)
    (page r : Nat) (acc : List ParsedListing) (att : Nat) (b : String)
    (hf : st.fetchPage (urlOf page) = .ok b) (hp : st.parsePage b = []) :
    scrapeLoop st urlOf page (r + 1) acc att = (acc, att + 1) := by
  simp [scrapeLoop, hf, hp]

/-- The pagination loop accumulates a non-empty page and moves on. -/
theorem scrapeLoop_step (st : FetchParseStack) (urlOf : Nat → String)
    (page r : Nat) (acc : List ParsedListing) (att : Nat) (b : String)
    (x : ParsedListing) (xs : List ParsedListing)
    (hf : st.fetchPage (urlOf page) = .ok b) (hp : st.parsePage b = x :: xs) :
    scrapeLoop st urlOf page (r + 1) acc att
      = scrapeLoop st urlOf (page + 1) r (acc ++ (x :: xs)) (att + 1) := by
  simp [scrapeLoop, hf, hp]

/-- C3: when page 1 parses to a non-empty listing set L and every page
from 2 onward parses to an empty set, scrape_amazon with max_pages = 5
returns exactly L having made exactly 2 page fetch attempts; when instead
page 2 fetch-fails, the loop still stops with the page-1 listings (partial
results); and when page 1 itself fetch-fails, the loop stops with the
empty partial result rather than raising. -/
theorem scrape_amazon_stops_on_empty_page (st : FetchParseStack)
    (product : String) (L : List ParsedListing) :
    (((st.fetchPage (amazonURL product 1)).toOption.map st.parsePage = some L) →
      L ≠ [] →
      (∀ p, p ≤ 5 → 2 ≤ p →
        (st.fetchPage (amazonURL product p)).toOption.map st.parsePage = some []) →
      scrape_amazon st product 5 = .ok (L, 2))
    ∧ (∀ e2, ((st.fetchPage (amazonURL product 1)).toOption.map st.parsePage = some L) →
      L ≠ [] →
      st.fetchPage (amazonURL product 2) = .error e2 →
      scrape_amazon st product 5 = .ok (L, 2))
    ∧ (∀ maxPages e, 1 ≤ maxPages →
        st.fetchPage (amazonURL product 1) = .error e →
        scrape_amazon st product maxPages = .ok ([], 1)) := by
  refine ⟨?_, ?_, ?_⟩
  · intro h1 hL h2
    obtain ⟨b1, hf1, hp1⟩ : ∃ b, st.fetchPage (amazonURL product 1) = .ok b
        ∧ st.parsePage b = L := by
      cases hf : st.fetchPage (amazonURL product 1) with
      | error e =>
        rw [hf] at h1
        simp [Except.toOption] at h1
      | ok b =>
        rw [hf] at h1
        simp [Except.toOption] at h1
        exact ⟨b, rfl, h1⟩
    obtain ⟨b2, hf2, hp2⟩ : ∃ b, st.fetchPage (amazonURL product 2) = .ok b
        ∧ st.parsePage b = [] := by
      have h := h2 2 (by omega) (by omega)
      cases hf : st.fetchPage (amazonURL product 2) with
      | error e =>
        rw [hf] at h
        simp [Except.toOption] at h
      | ok b =>
        rw [hf] at h
        simp [Except.toOption] at h
        exact ⟨b, rfl, h⟩
    cases L with
    | nil => exact absurd rfl hL
    | cons x xs =>
      simp only [scrape_amazon]
      rw [if_neg (by omega)]
      rw [show (5 : Nat) = 4 + 1 from rfl,
        scrapeLoop_step st (amazonURL product) 1 4 [] 0 b1 x xs hf1 hp1]
      norm_num
      rw [show (4 : Nat) = 3 + 1 from rfl,
        scrapeLoop_stop_empty st (amazonURL product) 2 3 (x :: xs) 1 b2 hf2 hp2]
  · intro e2 h1 hL hf2
    obtain ⟨b1, hf1, hp1⟩ : ∃ b, st.fetchPage (amazonURL product 1) = .ok b
        ∧ st.parsePage b = L := by
      cases hf : st.fetchPage (amazonURL product 1) with
      | error e =>
        rw [hf] at h1
        simp [Except.toOption] at h1
      | ok b =>
        rw [hf] at h1
        simp [Except.toOption] at h1
        exact ⟨b, rfl, h1⟩
    cases L with
    | nil => exact absurd rfl hL
    | cons x xs =>
      simp only [scrape_amazon]
      rw [if_neg (by omega)]
      rw [show (5 : Nat) = 4 + 1 from rfl,
        scrapeLoop_step st (amazonURL product) 1 4 [] 0 b1 x xs hf1 hp1]
      norm_num
      rw [show (4 : Nat) = 3 + 1 from rfl,
        scrapeLoop_stop_error st (amazonURL product) 2 3 (x :: xs) 1 e2 hf2]
  · intro maxPages e hmp hf
    obtain ⟨k, rfl⟩ : ∃ k, maxPages = k + 1 := ⟨maxPages - 1, by omega⟩
    simp only [scrape_amazon]
    rw [if_neg (by omega)]
    rw [scrapeLoop_stop_error st (amazonURL product) 1 k [] 0 e hf]

/-- Fake fetch/parse stack for the C3 witness: the fetched body is the
URL itself; only the page-1 URL parses to one listing. -/
def onePageStack : FetchParseStack :=
  { fetchPage := fun u => .ok u,
    parsePage := fun b =>
      if b = amazonURL "w" 1
      then [{ title := "t", price := 1, rating := none, reviewCount := none, seller := none }]
      else [] }

/-- Witness for C3: on the one-page fake stack, scrape_amazon with
max_pages = 5 returns the page-1 listing with exactly 2 fetch attempts. -/
theorem scrape_amazon_stops_on_empty_page_witness :
    scrape_amazon onePageStack "w" 5
      = .ok ([{ title := "t", price := 1, rating := none,
                reviewCount := none, seller := none }], 2) :=
  (scrape_amazon_stops_on_empty_page onePageStack "w" _).1
    (by decide) (by decide) (by decide)

end Cichlify
